import Mathlib

/-!
Verification of the F1-Dashboard data pipeline and schedule handler.

This file gives a shallow embedding of the two core modules of the
repository — `src/schedule_handler.py` (class `F1ScheduleHandler`) and
`src/data_loader.py` (class `F1DataLoader`) — and proves or refutes the
specification claims about them.

Modelling conventions:
- Timestamps are integers (seconds); an unparseable or missing ISO-8601
  grand-prix timestamp is `Option.none` (the Python code raises on access
  and the surrounding `try`/`except` skips the entry).
- pandas DataFrames are lists of records; `merge(on=k)` (inner join,
  left-key order preserved) is `flatMap` over the left table of a
  `filter` over the right table; `sort_values` / `list.sort` is
  `List.insertionSort` (a correct, stable comparison sort);
  `groupby(k)[c].cumsum()` assigns to each row the sum of column `c`
  over the rows at or before it that share its key.
- Python floats that stand for exact decimal data (championship points)
  are rationals; `NaN` produced by `pd.to_numeric(errors="coerce")` or by
  the mean of an empty series is `Option.none`.
- Exceptions that escape a function (`iloc[0]` on an empty selection)
  make its model return `Option.none`; exceptions caught by a `try` that
  `continue`s model as skipping the row.
-/

namespace F1

/-! ### Schedule handler: data model (`schedule_handler.py`) -/

/-- A calendar entry as read from `f1-<year>-schedule.json`: round, name,
location, and the grand-prix session timestamp (`sessions.gp`).
`gp = none` models a missing `sessions`/`gp` key or a timestamp string
`datetime.fromisoformat` rejects. -/
structure CalendarEntry where
  round : Int
  name : String
  location : String
  gp : Option Int
deriving DecidableEq, Repr

/-- `F1ScheduleHandler.get_next_race`: scan `self.races` in list order and
return the first race whose parsed grand-prix date is strictly after `now`;
a race whose date fails to parse is skipped by the `except: continue`. -/
def getNextRace (races : List CalendarEntry) (now : Int) : Option CalendarEntry :=
  races.find? fun r =>
    match r.gp with
    | some d => decide (now < d)
    | none => false

/-- The record returned by `F1ScheduleHandler.calculate_countdown`. -/
structure Countdown where
  days : Nat
  hours : Nat
  minutes : Nat
  seconds : Nat
  expired : Bool
deriving DecidableEq, Repr

/-- `F1ScheduleHandler.calculate_countdown`: `delta = target - now`;
if `delta.total_seconds() < 0` return all zeros with `expired = True`;
otherwise `days = delta.days`, `hours, rem = divmod(delta.seconds, 3600)`,
`minutes, seconds = divmod(rem, 60)` — for a non-negative whole-second
`delta` of `d` seconds, `delta.days = d // 86400` and
`delta.seconds = d % 86400`. -/
def calculateCountdown (target now : Int) : Countdown :=
  let delta := target - now
  if delta < 0 then
    { days := 0, hours := 0, minutes := 0, seconds := 0, expired := true }
  else
    let d := delta.toNat
    let days := d / 86400
    let secs := d % 86400
    let hours := secs / 3600
    let rem := secs % 3600
    let minutes := rem / 60
    let seconds := rem % 60
    { days := days, hours := hours, minutes := minutes, seconds := seconds, expired := false }

/-- One element of the list built by
`F1ScheduleHandler.get_formatted_schedule` (the fields the claims are
about; the remaining dict entries are string formattings of these). -/
structure FormattedRace where
  round : Int
  race_name : String
  location : String
  date : Int
  is_next : Bool
deriving DecidableEq, Repr

/-- The loop body of `get_formatted_schedule`: parse the grand-prix date
(skipping the entry if that raises), skip the entry when
`race_date < now`, and otherwise build the formatted record with
`is_next = False`. -/
def formatRaces (races : List CalendarEntry) (now : Int) : List FormattedRace :=
  races.filterMap fun r =>
    match r.gp with
    | none => none
    | some d =>
        if d < now then none
        else some { round := r.round, race_name := r.name ++ " Grand Prix",
                    location := r.location, date := d, is_next := false }

/-- The sort key relation of `formatted.sort(key=lambda x: x["date"])`. -/
def dateLe (a b : FormattedRace) : Prop := a.date ≤ b.date

instance : DecidableRel dateLe := fun a b => by unfold dateLe; infer_instance

instance : IsTotal FormattedRace dateLe := ⟨fun a b => Int.le_total a.date b.date⟩

instance : IsTrans FormattedRace dateLe := ⟨fun _ _ _ h h2 => le_trans h h2⟩

/-- `F1ScheduleHandler.get_formatted_schedule`: keep only races with a
parseable grand-prix date not before `now`, sort ascending by date, then
set `is_next = True` on the first element if the list is non-empty. -/
def getFormattedSchedule (races : List CalendarEntry) (now : Int) : List FormattedRace :=
  match (formatRaces races now).insertionSort dateLe with
  | [] => []
  | x :: xs => { x with is_next := true } :: xs

/-- The schedule source as `load_schedule` observes it: the file is absent
(no candidate path exists), present but not valid JSON (`json.load`
raises), or a parsed document whose `races` key is absent (`data.get`
defaults to `[]`) or holds a list of entries. -/
inductive ScheduleSource where
  | absent : ScheduleSource
  | malformed : ScheduleSource
  | doc : Option (List CalendarEntry) → ScheduleSource
deriving DecidableEq, Repr

/-- `F1ScheduleHandler.load_schedule`: returns the success flag together
with the `self.races` state it leaves behind.  Entries are stored exactly
as found in the document — no per-entry validation happens at load time —
and success is `len(self.races) > 0`. -/
def loadSchedule : ScheduleSource → Bool × List CalendarEntry
  | .absent => (false, [])
  | .malformed => (false, [])
  | .doc none => (false, [])
  | .doc (some l) => (decide (0 < l.length), l)

/-! ### Data loader: data model (`data_loader.py`) -/

/-- A row of `races.csv` after `_clean_data` (`year` coerced to integer). -/
structure RaceRow where
  raceId : Int
  year : Int
  round : Int
  name : String
deriving DecidableEq, Repr

/-- A row of `results.csv` after `_clean_data`: `positionOrder` is
`pd.to_numeric(..., errors="coerce")`, so a non-numeric finish code
(retired/withdrawn) becomes `NaN`, modelled `none`; missing `points` are
already filled with 0. -/
structure ResultRow where
  raceId : Int
  driverId : Int
  constructorId : Int
  positionOrder : Option Int
  points : ℚ
deriving DecidableEq, Repr

/-- A row of `drivers.csv`. -/
structure DriverRow where
  driverId : Int
  forename : String
  surname : String
deriving DecidableEq, Repr

/-- The tables of `F1DataLoader` the verified operations read. -/
structure F1Data where
  races : List RaceRow
  results : List ResultRow
  drivers : List DriverRow
deriving Repr

/-- An intermediate row of `get_driver_championship_data` after the two
merges: `results.merge(races[["raceId","year","round"]], on="raceId")`
followed by `.merge(drivers[["driverId","forename","surname"]],
on="driverId")`, with the `driver_name` column already concatenated. -/
structure MergedRow where
  raceId : Int
  driverId : Int
  year : Int
  round : Int
  points : ℚ
  driver_name : String
deriving DecidableEq, Repr

/-- An output row of `get_driver_championship_data`
(`merged[["year","round","driver_name","driverId","cumulative_points","points"]]`). -/
structure ChampRow where
  year : Int
  round : Int
  driver_name : String
  driverId : Int
  cumulative_points : ℚ
  points : ℚ
deriving DecidableEq, Repr

/-- The merge-filter-merge pipeline of `get_driver_championship_data`
before the sort: inner joins keep the left table's key order and emit one
row per matching pair; the year filter is `merged["year"] >= start_year`. -/
def champBase (ds : F1Data) (start_year : Int) : List MergedRow :=
  ((ds.results.flatMap fun res =>
      (ds.races.filter fun ra => ra.raceId == res.raceId).map fun ra => (res, ra)).filter
    fun p => start_year ≤ p.2.year).flatMap
    fun p =>
      (ds.drivers.filter fun d => d.driverId == p.1.driverId).map fun d =>
        { raceId := p.1.raceId, driverId := p.1.driverId, year := p.2.year,
          round := p.2.round, points := p.1.points,
          driver_name := d.forename ++ " " ++ d.surname }

/-- The sort key relation of
`merged.sort_values(["year", "driverId", "round"])`. -/
def champLe (a b : MergedRow) : Prop :=
  a.year < b.year ∨
    (a.year = b.year ∧
      (a.driverId < b.driverId ∨ (a.driverId = b.driverId ∧ a.round ≤ b.round)))

instance : DecidableRel champLe := fun a b => by unfold champLe; infer_instance

instance : IsTotal MergedRow champLe := ⟨by intro a b; unfold champLe; omega⟩

instance : IsTrans MergedRow champLe := ⟨by intro a b c; unfold champLe; omega⟩

/-- `merged.groupby(["year", "driverId"])["points"].cumsum()` at row
index `i` of `l`: the sum of `points` over the rows at positions `≤ i`
whose `(year, driverId)` key equals that of row `r`. -/
def cumPoints (l : List MergedRow) (i : Nat) (r : MergedRow) : ℚ :=
  (((l.take (i + 1)).filter fun s =>
      s.year == r.year && s.driverId == r.driverId).map fun s => s.points).sum

/-- `F1DataLoader.get_driver_championship_data`: merge, filter, merge,
sort by `(year, driverId, round)`, attach the grouped cumulative points
column, project the output columns. -/
def getDriverChampionshipData (ds : F1Data) (start_year : Int) : List ChampRow :=
  let sorted := (champBase ds start_year).insertionSort champLe
  sorted.enum.map fun ir =>
    { year := ir.2.year, round := ir.2.round, driver_name := ir.2.driver_name,
      driverId := ir.2.driverId, cumulative_points := cumPoints sorted ir.1 ir.2,
      points := ir.2.points }

/-- `driverN_results.merge(self.races[["raceId","year"]], on="raceId")` in
`get_head_to_head_data`: one row per (result, matching race) pair; only
the result-side columns (`positionOrder`, `points`) are read afterwards,
so the model keeps the result row (duplicated when a `raceId` matches
several race rows, dropped when it matches none). -/
def mergeWithRaces (results : List ResultRow) (races : List RaceRow) : List ResultRow :=
  results.flatMap fun res =>
    (races.filter fun ra => ra.raceId == res.raceId).map fun _ => res

/-- `Series.mean()` of the `positionOrder` column: pandas skips `NaN`
values (unclassified finishes), and the mean of an empty or all-`NaN`
series is `NaN`, modelled `none`. -/
def meanPosition (rs : List ResultRow) : Option ℚ :=
  let ps := rs.filterMap fun r => r.positionOrder
  if ps.isEmpty then none
  else some ((ps.map fun p => (p : ℚ)).sum / ps.length)

/-- The comparison dict returned by `get_head_to_head_data`. -/
structure H2HData where
  driver1 : String
  driver2 : String
  driver1_wins : Nat
  driver2_wins : Nat
  driver1_podiums : Nat
  driver2_podiums : Nat
  driver1_total_points : ℚ
  driver2_total_points : ℚ
  driver1_avg_position : Option ℚ
  driver2_avg_position : Option ℚ
deriving DecidableEq, Repr

/-- `F1DataLoader.get_head_to_head_data`: select each driver's result
rows, merge them with races, look up the drivers' name rows with
`.iloc[0]` (which raises `IndexError` when the driver table has no such
row — modelled by returning `none`), and assemble the comparison.
Comparisons of `positionOrder` against 1 and 3 are `False` on `NaN`
(`none`), matching pandas semantics. -/
def getHeadToHeadData (ds : F1Data) (driver1_id driver2_id : Int) : Option H2HData :=
  let driver1_results :=
    mergeWithRaces (ds.results.filter fun r => r.driverId == driver1_id) ds.races
  let driver2_results :=
    mergeWithRaces (ds.results.filter fun r => r.driverId == driver2_id) ds.races
  match ds.drivers.find? fun d => d.driverId == driver1_id,
      ds.drivers.find? fun d => d.driverId == driver2_id with
  | some d1, some d2 =>
      some
        { driver1 := d1.forename ++ " " ++ d1.surname,
          driver2 := d2.forename ++ " " ++ d2.surname,
          driver1_wins := (driver1_results.filter fun r => r.positionOrder == some 1).length,
          driver2_wins := (driver2_results.filter fun r => r.positionOrder == some 1).length,
          driver1_podiums :=
            (driver1_results.filter fun r =>
              match r.positionOrder with
              | some p => decide (p ≤ 3)
              | none => false).length,
          driver2_podiums :=
            (driver2_results.filter fun r =>
              match r.positionOrder with
              | some p => decide (p ≤ 3)
              | none => false).length,
          driver1_total_points := (driver1_results.map fun r => r.points).sum,
          driver2_total_points := (driver2_results.map fun r => r.points).sum,
          driver1_avg_position := meanPosition driver1_results,
          driver2_avg_position := meanPosition driver2_results }
  | _, _ => none

/-- Helper for `firstKeys`: collect keys not yet seen, in order. -/
def firstKeysAux : List Int → List Int → List Int
  | _, [] => []
  | seen, a :: l => if a ∈ seen then firstKeysAux seen l else a :: firstKeysAux (a :: seen) l

/-- The distinct group keys of `results.groupby("driverId")`, in first
occurrence order (the key order only affects undocumented tie-breaking
downstream). -/
def firstKeys (l : List Int) : List Int := firstKeysAux [] l

/-- `self.results.groupby("driverId")["points"].sum()` as a list of
(driverId, total points) pairs. -/
def groupSum (results : List ResultRow) : List (Int × ℚ) :=
  (firstKeys (results.map fun r => r.driverId)).map fun d =>
    (d, ((results.filter fun r => r.driverId == d).map fun r => r.points).sum)

/-- The sort key relation of
`driver_points.sort_values("points", ascending=False)`. -/
def ptsGe (a b : Int × ℚ) : Prop := b.2 ≤ a.2

instance : DecidableRel ptsGe := fun a b => by unfold ptsGe; infer_instance

instance : IsTotal (Int × ℚ) ptsGe := ⟨fun a b => (le_total b.2 a.2).imp id id⟩

instance : IsTrans (Int × ℚ) ptsGe := ⟨fun _ _ _ h h2 => le_trans h2 h⟩

/-- An output row of `get_top_drivers_list`
(`driver_points[["driverId", "driver_name", "points"]]`). -/
structure TopDriverRow where
  driverId : Int
  driver_name : String
  points : ℚ
deriving DecidableEq, Repr

/-- `F1DataLoader.get_top_drivers_list`: group results by driver and sum
points, sort descending by points, `head(limit)`, then inner-join the
driver table for display names (left-key order preserved; a driverId
with no driver row drops out here). -/
def getTopDriversList (ds : F1Data) (limit : Nat) : List TopDriverRow :=
  let driver_points := ((groupSum ds.results).insertionSort ptsGe).take limit
  driver_points.flatMap fun p =>
    (ds.drivers.filter fun d => d.driverId == p.1).map fun d =>
      { driverId := p.1, driver_name := d.forename ++ " " ++ d.surname, points := p.2 }

/-- The grand-prix timestamps of the parseable entries of a calendar, in
list order. -/
def gpTimes (races : List CalendarEntry) : List Int := races.filterMap fun r => r.gp

/-! ### Concrete instances used by witnesses and counterexamples -/

/-- A two-entry calendar, sorted ascending by grand-prix timestamp. -/
def rcSorted : List CalendarEntry := [⟨1, "A", "L", some 10⟩, ⟨2, "B", "M", some 20⟩]

/-- A calendar out of timestamp order, with one unparseable entry. -/
def rcUnsorted : List CalendarEntry :=
  [⟨2, "B", "M", some 100⟩, ⟨1, "A", "L", some 50⟩, ⟨3, "C", "N", none⟩]

/-- The formatted row `get_formatted_schedule rcUnsorted 10` places first. -/
def frA : FormattedRace := ⟨1, "A Grand Prix", "L", 50, true⟩

/-- The formatted row `get_formatted_schedule rcUnsorted 10` places second. -/
def frB : FormattedRace := ⟨2, "B Grand Prix", "M", 100, false⟩

/-- A calendar whose first entry has an unparseable grand-prix timestamp. -/
def rcMixed : List CalendarEntry := [⟨1, "A", "L", none⟩, ⟨2, "B", "M", some 9⟩]

/-- A two-race, two-driver dataset: driver 7 wins round 1 and is second in
round 2; driver 8 is unclassified in round 1 with zero points. -/
def dsChamp : F1Data where
  races := [⟨101, 2020, 1, "GPa"⟩, ⟨102, 2020, 2, "GPb"⟩]
  results := [⟨102, 7, 1, some 2, 18⟩, ⟨101, 7, 1, some 1, 25⟩, ⟨101, 8, 1, none, 0⟩]
  drivers := [⟨7, "Max", "V"⟩, ⟨8, "Lew", "H"⟩]

/-- A dataset in which driver 1 appears in the driver table but has zero
result rows, while driver 2 has one winning result. -/
def dsC6 : F1Data where
  races := [⟨101, 2020, 1, "GP"⟩]
  results := [⟨101, 2, 1, some 1, 25⟩]
  drivers := [⟨1, "A", "B"⟩, ⟨2, "C", "D"⟩]

/-- The comparison `get_head_to_head_data dsC6 1 2` actually returns. -/
def cC6 : H2HData := ⟨"A B", "C D", 0, 1, 0, 1, 0, 25, none, some 1⟩

/-- The comparison `get_head_to_head_data dsChamp 7 8` returns. -/
def cAB : H2HData := ⟨"Max V", "Lew H", 1, 0, 2, 0, 43, 0, some (3 / 2), none⟩

/-- The comparison `get_head_to_head_data dsChamp 8 7` returns. -/
def cBA : H2HData := ⟨"Lew H", "Max V", 0, 1, 0, 2, 0, 43, none, some (3 / 2)⟩

/-- A dataset with results for drivers 10, 11 and 12 (25, 18 and 10
career points) where driver 11 has no row in the driver table. -/
def dsTop : F1Data where
  races := []
  results := [⟨1, 10, 1, some 1, 25⟩, ⟨2, 11, 1, some 1, 18⟩, ⟨3, 12, 1, some 1, 10⟩]
  drivers := [⟨10, "A", "A2"⟩, ⟨12, "C", "C2"⟩]

/-! ### Theorems -/

/-- **C2.** `calculate_countdown`: for a strictly negative duration it
returns all-zero fields with `expired = true`; for a non-negative
duration of `d` whole seconds it returns `expired = false` with
`days = d / 86400` and the remainder decomposed by successive modulo into
hours in 0–23, minutes in 0–59 and seconds in 0–59; in particular
`d = 90061` gives `{days 1, hours 1, minutes 1, seconds 1, expired false}`. -/
theorem calculateCountdown_spec (target now : Int) :
    (target - now < 0 →
      calculateCountdown target now = ⟨0, 0, 0, 0, true⟩)
    ∧ (0 ≤ target - now →
        calculateCountdown target now =
          ⟨(target - now).toNat / 86400, (target - now).toNat % 86400 / 3600,
            (target - now).toNat % 86400 % 3600 / 60,
            (target - now).toNat % 86400 % 3600 % 60, false⟩
        ∧ (target - now).toNat % 86400 / 3600 < 24
        ∧ (target - now).toNat % 86400 % 3600 / 60 < 60
        ∧ (target - now).toNat % 86400 % 3600 % 60 < 60)
    ∧ calculateCountdown (now + 90061) now = ⟨1, 1, 1, 1, false⟩ := by
  refine ⟨fun h => ?_, fun h => ⟨?_, ?_, ?_, ?_⟩, ?_⟩
  · unfold calculateCountdown
    rw [if_pos h]
  · unfold calculateCountdown
    rw [if_neg (not_lt.mpr h)]
  · omega
  · omega
  · omega
  · unfold calculateCountdown
    have h : now + 90061 - now = (90061 : Int) := by omega
    rw [h]
    decide

/-- Witness for `calculateCountdown_spec`, discharging both duration-sign
hypotheses at concrete instants. -/
theorem calculateCountdown_spec_witness :
    ((0 : Int) - 1 < 0 ∧ calculateCountdown 0 1 = ⟨0, 0, 0, 0, true⟩)
    ∧ ((0 : Int) ≤ 90061 - 0 ∧
        calculateCountdown 90061 0 =
          ⟨((90061 : Int) - 0).toNat / 86400, ((90061 : Int) - 0).toNat % 86400 / 3600,
            ((90061 : Int) - 0).toNat % 86400 % 3600 / 60,
            ((90061 : Int) - 0).toNat % 86400 % 3600 % 60, false⟩) :=
  ⟨⟨by decide, (calculateCountdown_spec 0 1).1 (by decide)⟩,
    ⟨by decide, ((calculateCountdown_spec 90061 0).2.1 (by decide)).1⟩⟩

/-- **C3, counterexample.** The claim fails on the code in two ways: an
entry whose timestamp equals `now` is *not* eligible (the code tests
`race_date > now`, strictly), and on an unsorted calendar the code
returns the first strictly-future entry in list order, not the one with
the earliest timestamp. -/
theorem getNextRace_claim_counterexample :
    (getNextRace [⟨1, "A", "L", some 5⟩] 5 = none ∧ (5 : Int) ≤ 5)
    ∧ (getNextRace [⟨2, "B", "M", some 100⟩, ⟨1, "A", "L", some 50⟩] 10
          = some ⟨2, "B", "M", some 100⟩
        ∧ (10 : Int) ≤ 50 ∧ (50 : Int) < 100) :=
  ⟨⟨rfl, by decide⟩, rfl, by decide, by decide⟩

/-- **C3, amended.** On a calendar whose parseable grand-prix timestamps
are sorted ascending, `get_next_race` returns `none` exactly when no
parseable timestamp is strictly after `now`, and otherwise returns an
entry of the calendar whose timestamp is strictly after `now` and least
among all parseable timestamps strictly after `now`. -/
theorem getNextRace_amended (races : List CalendarEntry) (now : Int)
    (hsorted : List.Pairwise (fun a b => a ≤ b) (gpTimes races)) :
    (getNextRace races now = none ↔ ∀ d ∈ gpTimes races, d ≤ now)
    ∧ ∀ r, getNextRace races now = some r →
        r ∈ races ∧ ∃ d, r.gp = some d ∧ now < d ∧
          ∀ dd ∈ gpTimes races, now < dd → d ≤ dd := by
  induction races with
  | nil => exact ⟨by simp [getNextRace, gpTimes], by simp [getNextRace]⟩
  | cons a l ih =>
    rcases ha : a.gp with _ | d
    · have hg : gpTimes (a :: l) = gpTimes l := by simp [gpTimes, ha]
      have hn : getNextRace (a :: l) now = getNextRace l now := by
        simp [getNextRace, List.find?_cons, ha]
      rw [hg] at hsorted
      obtain ⟨ih1, ih2⟩ := ih hsorted
      refine ⟨by rw [hn, hg]; exact ih1, fun r hr => ?_⟩
      rw [hn] at hr
      obtain ⟨hmem, dd, hdd⟩ := ih2 r hr
      exact ⟨List.mem_cons_of_mem a hmem, dd, by rw [hg]; exact hdd⟩
    · have hg : gpTimes (a :: l) = d :: gpTimes l := by simp [gpTimes, ha]
      rw [hg] at hsorted
      have hd_le : ∀ dd ∈ gpTimes l, d ≤ dd := fun dd hdd =>
        List.rel_of_pairwise_cons hsorted hdd
      have hsl := List.Pairwise.of_cons hsorted
      obtain ⟨ih1, ih2⟩ := ih hsl
      by_cases hnow : now < d
      · have hn : getNextRace (a :: l) now = some a := by
          simp [getNextRace, List.find?_cons, ha, hnow]
        refine ⟨?_, fun r hr => ?_⟩
        · rw [hn, hg]
          simp only [false_iff, reduceCtorEq]
          intro hall
          exact absurd (hall d (List.mem_cons_self d _)) (not_le.mpr hnow)
        · rw [hn] at hr
          obtain rfl : a = r := by injection hr
          refine ⟨List.mem_cons_self a l, d, ha, hnow, ?_⟩
          rw [hg]
          intro dd hdd _
          rcases List.mem_cons.mp hdd with rfl | hdd
          · exact le_rfl
          · exact hd_le dd hdd
      · have hn : getNextRace (a :: l) now = getNextRace l now := by
          simp [getNextRace, List.find?_cons, ha, hnow]
        refine ⟨?_, fun r hr => ?_⟩
        · rw [hn, hg, ih1]
          constructor
          · intro hall dd hdd
            rcases List.mem_cons.mp hdd with rfl | hdd
            · exact not_lt.mp hnow
            · exact hall dd hdd
          · intro hall dd hdd
            exact hall dd (List.mem_cons_of_mem d hdd)
        · rw [hn] at hr
          obtain ⟨hmem, dd, hdd1, hdd2, hdd3⟩ := ih2 r hr
          refine ⟨List.mem_cons_of_mem a hmem, dd, hdd1, hdd2, ?_⟩
          rw [hg]
          intro de hde hlt
          rcases List.mem_cons.mp hde with rfl | hde
          · exact absurd hlt hnow
          · exact hdd3 de hde hlt

/-- Witness for `getNextRace_amended` on a sorted two-entry calendar. -/
theorem getNextRace_amended_witness :
    List.Pairwise (fun a b => a ≤ b) (gpTimes rcSorted)
    ∧ (getNextRace rcSorted 5 = none ↔ ∀ d ∈ gpTimes rcSorted, d ≤ 5)
    ∧ (getNextRace rcSorted 5 = some ⟨1, "A", "L", some 10⟩ →
        (⟨1, "A", "L", some 10⟩ : CalendarEntry) ∈ rcSorted ∧
          ∃ d, (⟨1, "A", "L", some 10⟩ : CalendarEntry).gp = some d ∧ 5 < d ∧
            ∀ dd ∈ gpTimes rcSorted, 5 < dd → d ≤ dd) :=
  ⟨by decide, (getNextRace_amended rcSorted 5 (by decide)).1,
    (getNextRace_amended rcSorted 5 (by decide)).2 _⟩

/-- **C7, counterexample.** A document containing a single entry with an
unparseable grand-prix timestamp loads *successfully*: the claim says a
skipped unparseable entry that leaves zero entries makes the load fail,
but `load_schedule` performs no per-entry validation at all and succeeds
on any non-empty `races` list. -/
theorem loadSchedule_claim_counterexample :
    (loadSchedule (.doc (some [⟨1, "A", "L", none⟩]))).1 = true
    ∧ ([⟨1, "A", "L", none⟩] : List CalendarEntry).filter (fun r => r.gp.isSome) = [] :=
  ⟨rfl, rfl⟩

/-- **C7, amended.** Schedule load fails exactly when the source is
absent, the source document is malformed, or the `races` list is missing
or empty; entries are not validated at load time — the list is stored as
found, so unparseable entries count toward the non-emptiness test and
are only skipped later by the query operations. -/
theorem loadSchedule_amended (src : ScheduleSource) :
    ((loadSchedule src).1 = true ↔ ∃ l, src = .doc (some l) ∧ l ≠ [])
    ∧ ∀ l, src = .doc (some l) → (loadSchedule src).2 = l := by
  rcases src with _ | _ | o
  · exact ⟨by simp [loadSchedule], by simp [loadSchedule]⟩
  · exact ⟨by simp [loadSchedule], by simp [loadSchedule]⟩
  · rcases o with _ | l
    · exact ⟨by simp [loadSchedule], by simp [loadSchedule]⟩
    · refine ⟨?_, ?_⟩
      · simp only [loadSchedule, decide_eq_true_eq]
        constructor
        · intro h
          exact ⟨l, rfl, by simpa [List.length_pos] using h⟩
        · rintro ⟨m, hm, hne⟩
          have h2 : l = m := by
            injection hm with h1
            injection h1
          subst h2
          simpa [List.length_pos] using hne
      · intro m hm
        have h2 : l = m := by
          injection hm with h1
          injection h1
        subst h2
        rfl

/-- Witness for `loadSchedule_amended` at a well-formed one-entry
document. -/
theorem loadSchedule_amended_witness :
    ((loadSchedule (.doc (some [⟨1, "A", "L", some 3⟩]))).1 = true ↔
      ∃ l, ScheduleSource.doc (some [⟨1, "A", "L", some 3⟩]) = .doc (some l) ∧ l ≠ [])
    ∧ (loadSchedule (.doc (some [⟨1, "A", "L", some 3⟩]))).2 = [⟨1, "A", "L", some 3⟩] :=
  ⟨(loadSchedule_amended _).1, (loadSchedule_amended _).2 _ rfl⟩

/-- A `find?` whose predicate rejects entries without a parseable
grand-prix timestamp is unchanged by removing those entries. -/
theorem find?_filter_isSome (p : CalendarEntry → Bool)
    (h : ∀ a, a.gp = none → p a = false) :
    ∀ l : List CalendarEntry, l.find? p = (l.filter fun r => r.gp.isSome).find? p := by
  intro l
  induction l with
  | nil => rfl
  | cons a l ih =>
    rcases ha : a.gp with _ | d
    · rw [List.filter_cons_of_neg (by simp [ha]),
        List.find?_cons_of_neg _ (by simp [h a ha])]
      exact ih
    · rw [List.filter_cons_of_pos (by simp [ha])]
      rcases hp : p a with _ | _
      · rw [List.find?_cons_of_neg _ (by simp [hp]), List.find?_cons_of_neg _ (by simp [hp])]
        exact ih
      · rw [List.find?_cons_of_pos _ hp, List.find?_cons_of_pos _ hp]

/-- A `filterMap` that maps entries without a parseable grand-prix
timestamp to `none` is unchanged by removing those entries. -/
theorem filterMap_filter_isSome (f : CalendarEntry → Option FormattedRace)
    (h : ∀ a, a.gp = none → f a = none) :
    ∀ l : List CalendarEntry, l.filterMap f = (l.filter fun r => r.gp.isSome).filterMap f := by
  intro l
  induction l with
  | nil => rfl
  | cons a l ih =>
    rcases ha : a.gp with _ | d
    · rw [List.filter_cons_of_neg (by simp [ha]), List.filterMap_cons_none (h a ha)]
      exact ih
    · rw [List.filter_cons_of_pos (by simp [ha]), List.filterMap_cons, List.filterMap_cons]
      rcases hf : f a with _ | b <;> simp [ih]

/-- **C10.** Both `get_next_race` and `get_formatted_schedule` are total
on entries whose grand-prix timestamp is missing or unparseable: their
output is unchanged when those entries are removed from the calendar
(they are silently skipped, never returned and never a source of an
uncaught exception), and any entry `get_next_race` returns has a
parseable timestamp. -/
theorem scheduleOps_skip_unparseable (races : List CalendarEntry) (now : Int) :
    getNextRace races now = getNextRace (races.filter fun r => r.gp.isSome) now
    ∧ getFormattedSchedule races now
        = getFormattedSchedule (races.filter fun r => r.gp.isSome) now
    ∧ ∀ r, getNextRace races now = some r → r.gp.isSome = true := by
  refine ⟨?_, ?_, ?_⟩
  · unfold getNextRace
    exact find?_filter_isSome _ (fun a ha => by simp [ha]) races
  · have hfm : formatRaces races now
        = formatRaces (races.filter fun r => r.gp.isSome) now := by
      unfold formatRaces
      exact filterMap_filter_isSome _ (fun a ha => by simp [ha]) races
    rw [getFormattedSchedule, getFormattedSchedule, hfm]
  · intro r hr
    have hp := List.find?_some hr
    rcases h : r.gp with _ | d
    · rw [h] at hp
      simp at hp
    · simp [h]

/-- Every row built by the `get_formatted_schedule` loop has a date not
before `now` and `is_next = false`. -/
theorem formatRaces_mem {races : List CalendarEntry} {now : Int} {e : FormattedRace}
    (he : e ∈ formatRaces races now) : now ≤ e.date ∧ e.is_next = false := by
  obtain ⟨a, _, hfa⟩ := List.mem_filterMap.mp he
  rcases hgp : a.gp with _ | d
  · simp [formatRaces, hgp] at hfa
  · simp only [hgp] at hfa
    by_cases hd : d < now
    · simp [hd] at hfa
    · rw [if_neg hd] at hfa
      injection hfa with hfa
      rw [← hfa]
      exact ⟨not_lt.mp hd, rfl⟩

/-- **C4.** Every entry returned by `get_formatted_schedule` has a
grand-prix timestamp at or after the evaluation instant, and the returned
list is sorted ascending by that timestamp. -/
theorem getFormattedSchedule_future_sorted (races : List CalendarEntry) (now : Int) :
    (∀ e ∈ getFormattedSchedule races now, now ≤ e.date)
    ∧ List.Pairwise (fun a b => a.date ≤ b.date) (getFormattedSchedule races now) := by
  have hsorted := List.sorted_insertionSort dateLe (formatRaces races now)
  rcases hs : (formatRaces races now).insertionSort dateLe with _ | ⟨x, xs⟩
  · have hout : getFormattedSchedule races now = [] := by
      rw [getFormattedSchedule, hs]
    rw [hout]
    exact ⟨by simp, by simp⟩
  · rw [hs] at hsorted
    have hmem : ∀ y, y ∈ x :: xs → y ∈ formatRaces races now := by
      intro y hy
      exact (List.mem_insertionSort dateLe).mp (hs ▸ hy)
    have hout : getFormattedSchedule races now = { x with is_next := true } :: xs := by
      rw [getFormattedSchedule, hs]
    rw [hout]
    constructor
    · intro e he
      rcases List.mem_cons.mp he with rfl | he
      · exact (formatRaces_mem (hmem x (List.mem_cons_self x xs))).1
      · exact (formatRaces_mem (hmem e (List.mem_cons_of_mem x he))).1
    · rw [List.sorted_cons] at hsorted
      rw [List.pairwise_cons]
      exact ⟨fun y hy => hsorted.1 y hy, hsorted.2⟩

/-- Witness for `getFormattedSchedule_future_sorted` on `rcUnsorted` at
instant 10: the first returned row's date is at or after 10, and the
returned list is sorted. -/
theorem getFormattedSchedule_future_sorted_witness :
    (10 : Int) ≤ frA.date
    ∧ List.Pairwise (fun a b => a.date ≤ b.date) (getFormattedSchedule rcUnsorted 10) :=
  ⟨(getFormattedSchedule_future_sorted rcUnsorted 10).1 frA (by decide),
    (getFormattedSchedule_future_sorted rcUnsorted 10).2⟩

/-- **C5.** The list returned by `get_formatted_schedule` contains
exactly one row with `is_next = true` when it is non-empty and zero such
rows when it is empty, and a flagged row's date is least among all
returned dates. -/
theorem getFormattedSchedule_unique_next (races : List CalendarEntry) (now : Int) :
    ((getFormattedSchedule races now).countP (fun e => e.is_next)
        = if getFormattedSchedule races now = [] then 0 else 1)
    ∧ ∀ e ∈ getFormattedSchedule races now, e.is_next = true →
        ∀ g ∈ getFormattedSchedule races now, e.date ≤ g.date := by
  have hsorted := List.sorted_insertionSort dateLe (formatRaces races now)
  rcases hs : (formatRaces races now).insertionSort dateLe with _ | ⟨x, xs⟩
  · have hout : getFormattedSchedule races now = [] := by
      rw [getFormattedSchedule, hs]
    rw [hout]
    exact ⟨by simp, by simp⟩
  · rw [hs] at hsorted
    have hmem : ∀ y, y ∈ x :: xs → y ∈ formatRaces races now := by
      intro y hy
      exact (List.mem_insertionSort dateLe).mp (hs ▸ hy)
    have htail : ∀ y ∈ xs, y.is_next = false := fun y hy =>
      (formatRaces_mem (hmem y (List.mem_cons_of_mem x hy))).2
    have hout : getFormattedSchedule races now = { x with is_next := true } :: xs := by
      rw [getFormattedSchedule, hs]
    rw [hout]
    constructor
    · rw [if_neg (by simp)]
      rw [List.countP_cons_of_pos _ _ (by simp)]
      have hz : xs.countP (fun e => e.is_next) = 0 := by
        rw [List.countP_eq_zero]
        intro y hy
        simp [htail y hy]
      rw [hz]
    · intro e he hnext g hg
      rcases List.mem_cons.mp he with rfl | he
      · rcases List.mem_cons.mp hg with rfl | hg
        · exact le_rfl
        · exact List.rel_of_sorted_cons hsorted g hg
      · rw [htail e he] at hnext
        exact absurd hnext (by simp)

/-- Witness for `getFormattedSchedule_unique_next` on `rcUnsorted` at
instant 10: the flagged first row's date is below the second row's. -/
theorem getFormattedSchedule_unique_next_witness :
    ((getFormattedSchedule rcUnsorted 10).countP (fun e => e.is_next)
        = if getFormattedSchedule rcUnsorted 10 = [] then 0 else 1)
    ∧ frA.date ≤ frB.date :=
  ⟨(getFormattedSchedule_unique_next rcUnsorted 10).1,
    (getFormattedSchedule_unique_next rcUnsorted 10).2 frA (by decide) rfl frB (by decide)⟩

/-- Witness for `scheduleOps_skip_unparseable` on a calendar with one
unparseable and one parseable entry. -/
theorem scheduleOps_skip_unparseable_witness :
    getNextRace rcMixed 0 = getNextRace (rcMixed.filter fun r => r.gp.isSome) 0
    ∧ getFormattedSchedule rcMixed 0
        = getFormattedSchedule (rcMixed.filter fun r => r.gp.isSome) 0
    ∧ (⟨2, "B", "M", some 9⟩ : CalendarEntry).gp.isSome = true :=
  ⟨(scheduleOps_skip_unparseable rcMixed 0).1,
    (scheduleOps_skip_unparseable rcMixed 0).2.1,
    (scheduleOps_skip_unparseable rcMixed 0).2.2 _ rfl⟩

/-- **C6, counterexample.** Head-to-head invoked for a driverId with zero
rows in the results table does *not* surface an error when that driverId
still has a row in the driver table: `get_head_to_head_data dsC6 1 2`
returns a comparison dict (with a silently undefined average position)
rather than raising. -/
theorem getHeadToHeadData_claim_counterexample :
    (dsC6.results.filter fun r => r.driverId == 1) = []
    ∧ getHeadToHeadData dsC6 1 2 = some cC6 := by
  refine ⟨rfl, ?_⟩
  norm_num [getHeadToHeadData, dsC6, mergeWithRaces, meanPosition, cC6, List.find?,
    List.filterMap, Option.bind]
  rfl

/-- **C6, amended.** For a driverId with zero rows in the results table:
if the driver table also has no row for it, `get_head_to_head_data`
raises (`iloc[0]` on an empty selection — a surfaced error); but if the
driver table does have such a row, the call returns normally with
`driver1_avg_position` undefined (`NaN`, here `none`) and zero wins,
podiums and points — a silently defaulted value, not an error. -/
theorem getHeadToHeadData_amended (ds : F1Data) (d1 d2 : Int)
    (h : (ds.results.filter fun r => r.driverId == d1) = []) :
    ((ds.drivers.find? fun d => d.driverId == d1) = none →
      getHeadToHeadData ds d1 d2 = none)
    ∧ ∀ c, getHeadToHeadData ds d1 d2 = some c →
        c.driver1_avg_position = none ∧ c.driver1_wins = 0 ∧ c.driver1_podiums = 0
          ∧ c.driver1_total_points = 0 := by
  constructor
  · intro hf
    unfold getHeadToHeadData
    rw [hf]
  · intro c hc
    unfold getHeadToHeadData at hc
    rcases hf1 : ds.drivers.find? fun d => d.driverId == d1 with _ | e1 <;>
      rcases hf2 : ds.drivers.find? fun d => d.driverId == d2 with _ | e2 <;>
        rw [hf1, hf2] at hc
    · exact Option.noConfusion hc
    · exact Option.noConfusion hc
    · exact Option.noConfusion hc
    · have hc2 := Option.some.inj hc
      rw [← hc2, h]
      refine ⟨rfl, rfl, rfl, rfl⟩

/-- Witness for `getHeadToHeadData_amended`: driver 99 is absent from
both tables of `dsC6` (the call errors), and driver 1 has a driver row
but zero results (the call silently succeeds with `cC6`). -/
theorem getHeadToHeadData_amended_witness :
    getHeadToHeadData dsC6 99 2 = none
    ∧ (cC6.driver1_avg_position = none ∧ cC6.driver1_wins = 0 ∧ cC6.driver1_podiums = 0
        ∧ cC6.driver1_total_points = 0) :=
  ⟨(getHeadToHeadData_amended dsC6 99 2 rfl).1 rfl,
    (getHeadToHeadData_amended dsC6 1 2 rfl).2 cC6 (by
      norm_num [getHeadToHeadData, dsC6, mergeWithRaces, meanPosition, cC6, List.find?,
        List.filterMap, Option.bind]
      rfl)⟩

/-- **C8.** Head-to-head comparison is symmetric in its underlying facts:
whenever both orders are defined, every `driver1_*` statistic of
`compare(A,B)` equals the corresponding `driver2_*` statistic of
`compare(B,A)`, and conversely. -/
theorem getHeadToHeadData_symm (ds : F1Data) (a b : Int) (c c2 : H2HData)
    (hab : getHeadToHeadData ds a b = some c)
    (hba : getHeadToHeadData ds b a = some c2) :
    c.driver1_wins = c2.driver2_wins ∧ c.driver1_podiums = c2.driver2_podiums
    ∧ c.driver1_total_points = c2.driver2_total_points
    ∧ c.driver1_avg_position = c2.driver2_avg_position
    ∧ c.driver2_wins = c2.driver1_wins ∧ c.driver2_podiums = c2.driver1_podiums
    ∧ c.driver2_total_points = c2.driver1_total_points
    ∧ c.driver2_avg_position = c2.driver1_avg_position := by
  unfold getHeadToHeadData at hab hba
  rcases hfa : ds.drivers.find? fun d => d.driverId == a with _ | ea <;>
    rcases hfb : ds.drivers.find? fun d => d.driverId == b with _ | eb <;>
      rw [hfa, hfb] at hab hba
  · exact Option.noConfusion hab
  · exact Option.noConfusion hab
  · exact Option.noConfusion hab
  · have h1 := Option.some.inj hab
    have h2 := Option.some.inj hba
    rw [← h1, ← h2]
    exact ⟨rfl, rfl, rfl, rfl, rfl, rfl, rfl, rfl⟩

/-- Witness for `getHeadToHeadData_symm` on `dsChamp` with drivers 7
and 8 in both orders. -/
theorem getHeadToHeadData_symm_witness :
    cAB.driver1_wins = cBA.driver2_wins ∧ cAB.driver1_podiums = cBA.driver2_podiums
    ∧ cAB.driver1_total_points = cBA.driver2_total_points
    ∧ cAB.driver1_avg_position = cBA.driver2_avg_position
    ∧ cAB.driver2_wins = cBA.driver1_wins ∧ cAB.driver2_podiums = cBA.driver1_podiums
    ∧ cAB.driver2_total_points = cBA.driver1_total_points
    ∧ cAB.driver2_avg_position = cBA.driver1_avg_position :=
  getHeadToHeadData_symm dsChamp 7 8 cAB cBA
    (by
      norm_num [getHeadToHeadData, dsChamp, mergeWithRaces, meanPosition, cAB, List.find?,
        List.filterMap, Option.bind]
      rfl)
    (by
      norm_num [getHeadToHeadData, dsChamp, mergeWithRaces, meanPosition, cBA, List.find?,
        List.filterMap, Option.bind]
      rfl)

/-- Every merged row of the championship pipeline carries the points of
some result row, so non-negative inputs give non-negative merged points. -/
theorem champBase_points_nonneg (ds : F1Data) (start_year : Int)
    (hpts : ∀ res ∈ ds.results, 0 ≤ res.points) :
    ∀ m ∈ champBase ds start_year, 0 ≤ m.points := by
  intro m hm
  unfold champBase at hm
  rcases List.mem_flatMap.mp hm with ⟨pr, hpr, hmm⟩
  rcases List.mem_map.mp hmm with ⟨dr, _, hdr2⟩
  have hpr2 := (List.mem_filter.mp hpr).1
  rcases List.mem_flatMap.mp hpr2 with ⟨res, hres, hpair⟩
  rcases List.mem_map.mp hpair with ⟨ra, _, hra2⟩
  rw [← hdr2]
  have hfst : pr.1 = res := by rw [← hra2]
  rw [hfst]
  exact hpts res hres

/-- Grouped prefix sums over a longer prefix dominate those over a
shorter one when all summands are non-negative. -/
theorem sumFilter_take_mono (l : List MergedRow) (p : MergedRow → Bool)
    (hnn : ∀ s ∈ l, 0 ≤ s.points) {m n : Nat} (hmn : m ≤ n) :
    (((l.take m).filter p).map fun s => s.points).sum
      ≤ (((l.take n).filter p).map fun s => s.points).sum := by
  have h1 : l.take m = (l.take n).take m := by
    rw [List.take_take, Nat.min_eq_left hmn]
  rw [h1]
  conv_rhs => rw [← List.take_append_drop m (l.take n)]
  rw [List.filter_append, List.map_append, List.sum_append]
  have h2 : 0 ≤ ((((l.take n).drop m).filter p).map fun s => s.points).sum := by
    apply List.sum_nonneg
    intro x hx
    rcases List.mem_map.mp hx with ⟨s, hs, rfl⟩
    exact hnn s (List.mem_of_mem_take (List.mem_of_mem_drop (List.mem_filter.mp hs).1))
  linarith

/-- **C1.** When every result's points value is non-negative, any two
output rows of `get_driver_championship_data` for the same
`(year, driverId)` pair, taken in output order, have non-decreasing
round numbers and non-decreasing cumulative points — i.e. the cumulative
series of each pair is monotone in ascending round order. -/
theorem getDriverChampionshipData_cumulative_monotone (ds : F1Data) (start_year : Int)
    (hpts : ∀ res ∈ ds.results, 0 ≤ res.points) (i j : Nat)
    (hi : i < (getDriverChampionshipData ds start_year).length)
    (hj : j < (getDriverChampionshipData ds start_year).length) (hij : i < j)
    (hyear : ((getDriverChampionshipData ds start_year).get ⟨i, hi⟩).year
        = ((getDriverChampionshipData ds start_year).get ⟨j, hj⟩).year)
    (hdrv : ((getDriverChampionshipData ds start_year).get ⟨i, hi⟩).driverId
        = ((getDriverChampionshipData ds start_year).get ⟨j, hj⟩).driverId) :
    ((getDriverChampionshipData ds start_year).get ⟨i, hi⟩).round
        ≤ ((getDriverChampionshipData ds start_year).get ⟨j, hj⟩).round
    ∧ ((getDriverChampionshipData ds start_year).get ⟨i, hi⟩).cumulative_points
        ≤ ((getDriverChampionshipData ds start_year).get ⟨j, hj⟩).cumulative_points := by
  have hlen : (getDriverChampionshipData ds start_year).length
      = ((champBase ds start_year).insertionSort champLe).length := by
    simp [getDriverChampionshipData]
  have hi2 : i < ((champBase ds start_year).insertionSort champLe).length := hlen ▸ hi
  have hj2 : j < ((champBase ds start_year).insertionSort champLe).length := hlen ▸ hj
  have hget : ∀ (k : Nat) (hk : k < (getDriverChampionshipData ds start_year).length)
      (hk2 : k < ((champBase ds start_year).insertionSort champLe).length),
      (getDriverChampionshipData ds start_year).get ⟨k, hk⟩ =
        { year := (((champBase ds start_year).insertionSort champLe).get ⟨k, hk2⟩).year,
          round := (((champBase ds start_year).insertionSort champLe).get ⟨k, hk2⟩).round,
          driver_name :=
            (((champBase ds start_year).insertionSort champLe).get ⟨k, hk2⟩).driver_name,
          driverId := (((champBase ds start_year).insertionSort champLe).get ⟨k, hk2⟩).driverId,
          cumulative_points := cumPoints ((champBase ds start_year).insertionSort champLe) k
            (((champBase ds start_year).insertionSort champLe).get ⟨k, hk2⟩),
          points := (((champBase ds start_year).insertionSort champLe).get ⟨k, hk2⟩).points } := by
    intro k hk hk2
    simp [getDriverChampionshipData, List.get_eq_getElem, List.getElem_map, List.getElem_enum]
  rw [hget i hi hi2, hget j hj hj2] at hyear hdrv ⊢
  dsimp only at hyear hdrv ⊢
  constructor
  · have hcl : champLe (((champBase ds start_year).insertionSort champLe).get ⟨i, hi2⟩)
        (((champBase ds start_year).insertionSort champLe).get ⟨j, hj2⟩) := by
      have hp := List.pairwise_iff_getElem.mp
        (List.sorted_insertionSort champLe (champBase ds start_year)) i j hi2 hj2 hij
      simpa [List.get_eq_getElem] using hp
    rcases hcl with h | ⟨h1, h | ⟨h2, h3⟩⟩
    · omega
    · omega
    · exact h3
  · unfold cumPoints
    have hkey : (fun s : MergedRow =>
          s.year == (((champBase ds start_year).insertionSort champLe).get ⟨j, hj2⟩).year
            && s.driverId
              == (((champBase ds start_year).insertionSort champLe).get ⟨j, hj2⟩).driverId)
        = fun s =>
            s.year == (((champBase ds start_year).insertionSort champLe).get ⟨i, hi2⟩).year
              && s.driverId
                == (((champBase ds start_year).insertionSort champLe).get ⟨i, hi2⟩).driverId := by
      rw [← hyear, ← hdrv]
    rw [hkey]
    exact sumFilter_take_mono ((champBase ds start_year).insertionSort champLe) _
      (fun s hs => champBase_points_nonneg ds start_year hpts s
        ((List.mem_insertionSort champLe).mp hs))
      (Nat.succ_le_succ (le_of_lt hij))

/-- Witness for `getDriverChampionshipData_cumulative_monotone` on
`dsChamp`: rows 0 and 1 of the output both belong to driver 7 in 2020,
and the theorem yields monotone rounds and cumulative points there. -/
theorem getDriverChampionshipData_cumulative_monotone_witness :
    (∀ res ∈ dsChamp.results, 0 ≤ res.points)
    ∧ ((getDriverChampionshipData dsChamp 2010).get ⟨0, by decide⟩).round
        ≤ ((getDriverChampionshipData dsChamp 2010).get ⟨1, by decide⟩).round
    ∧ ((getDriverChampionshipData dsChamp 2010).get ⟨0, by decide⟩).cumulative_points
        ≤ ((getDriverChampionshipData dsChamp 2010).get ⟨1, by decide⟩).cumulative_points :=
  ⟨by decide,
    (getDriverChampionshipData_cumulative_monotone dsChamp 2010 (by decide) 0 1
      (by decide) (by decide) (by decide) rfl rfl).1,
    (getDriverChampionshipData_cumulative_monotone dsChamp 2010 (by decide) 0 1
      (by decide) (by decide) (by decide) rfl rfl).2⟩

/-- With pairwise-distinct driverIds in the driver table, at most one
driver row matches any given key. -/
theorem filter_driverId_length_le_one (l : List DriverRow) (c : Int)
    (h : (l.map fun d => d.driverId).Nodup) :
    (l.filter fun d => d.driverId == c).length ≤ 1 := by
  induction l with
  | nil => simp
  | cons a l ih =>
    rw [List.map_cons, List.nodup_cons] at h
    by_cases ha : (a.driverId == c) = true
    · rw [List.filter_cons, if_pos ha]
      have hnil : (l.filter fun d => d.driverId == c) = [] := by
        rw [List.filter_eq_nil_iff]
        intro d hd hdc
        have e1 : a.driverId = c := by simpa using ha
        have e2 : d.driverId = c := by simpa using hdc
        exact h.1 (List.mem_map.mpr ⟨d, hd, by rw [e1, e2]⟩)
      rw [hnil]
      simp
    · rw [List.filter_cons, if_neg ha]
      exact ih h.2

/-- A `flatMap` whose blocks have at most one element produces at most
one output row per input row. -/
theorem flatMap_length_le {α β : Type} (l : List α) (f : α → List β)
    (h : ∀ x ∈ l, (f x).length ≤ 1) : (l.flatMap f).length ≤ l.length := by
  induction l with
  | nil => simp
  | cons a l ih =>
    rw [List.flatMap_cons, List.length_append, List.length_cons]
    have ha := h a (List.mem_cons_self a l)
    have hl := ih fun x hx => h x (List.mem_cons_of_mem a hx)
    omega

/-- A `flatMap` whose blocks have at most one element and at least one
empty block produces strictly fewer output rows than input rows. -/
theorem flatMap_length_lt {α β : Type} (l : List α) (f : α → List β)
    (h : ∀ x ∈ l, (f x).length ≤ 1) (hx : ∃ x ∈ l, f x = []) :
    (l.flatMap f).length < l.length := by
  rcases hx with ⟨x, hxl, hfx⟩
  induction l with
  | nil => simp at hxl
  | cons a l ih =>
    rw [List.flatMap_cons, List.length_append, List.length_cons]
    rcases List.mem_cons.mp hxl with rfl | hxl2
    · rw [hfx]
      have hl := flatMap_length_le l f fun y hy => h y (List.mem_cons_of_mem x hy)
      simp only [List.length_nil]
      omega
    · have hl := ih (fun y hy => h y (List.mem_cons_of_mem a hy)) hxl2
      have ha := h a (List.mem_cons_self a l)
      omega

/-- **C9.** In `get_top_drivers_list` the truncation to the top `limit`
driverIds happens before the join with the driver table: the output has
at most `limit` rows, is sorted by total points descending, only ever
contains driverIds from the pre-join top-`limit` list, and when one of
those top driverIds has no driver row (and at least `limit` driverIds
scored), the output has strictly fewer than `limit` rows — the dropped
driver is not backfilled. -/
theorem getTopDriversList_spec (ds : F1Data) (limit : Nat)
    (hnd : (ds.drivers.map fun d => d.driverId).Nodup) :
    (getTopDriversList ds limit).length ≤ limit
    ∧ List.Pairwise (fun a b => b.points ≤ a.points) (getTopDriversList ds limit)
    ∧ (∀ row ∈ getTopDriversList ds limit,
        row.driverId ∈ (((groupSum ds.results).insertionSort ptsGe).take limit).map Prod.fst)
    ∧ (limit ≤ (groupSum ds.results).length →
        (∃ p ∈ ((groupSum ds.results).insertionSort ptsGe).take limit,
          (ds.drivers.filter fun d => d.driverId == p.1) = []) →
        (getTopDriversList ds limit).length < limit) := by
  have hblock : ∀ p : Int × ℚ,
      ((ds.drivers.filter fun d => d.driverId == p.1).map fun d =>
        ({ driverId := p.1, driver_name := d.forename ++ " " ++ d.surname,
           points := p.2 } : TopDriverRow)).length ≤ 1 := by
    intro p
    rw [List.length_map]
    exact filter_driverId_length_le_one ds.drivers p.1 hnd
  refine ⟨?_, ?_, ?_, ?_⟩
  · simp only [getTopDriversList]
    refine le_trans (flatMap_length_le _ _ fun x _ => hblock x) ?_
    rw [List.length_take]
    exact min_le_left _ _
  · simp only [getTopDriversList]
    refine List.pairwise_flatMap.mpr ⟨?_, ?_⟩
    · intro p hp
      apply List.pairwise_iff_getElem.mpr
      intro i2 j2 hi2 hj2 hij2
      simp only [List.getElem_map]
      exact le_rfl
    · have hpre : List.Pairwise ptsGe (((groupSum ds.results).insertionSort ptsGe).take limit) :=
        List.Pairwise.sublist (List.take_sublist limit _)
          (List.sorted_insertionSort ptsGe (groupSum ds.results))
      refine List.Pairwise.imp ?_ hpre
      intro p q hpq x hx y hy
      rcases List.mem_map.mp hx with ⟨dx, _, rfl⟩
      rcases List.mem_map.mp hy with ⟨dy, _, rfl⟩
      exact hpq
  · intro row hrow
    simp only [getTopDriversList] at hrow
    rcases List.mem_flatMap.mp hrow with ⟨p, hp, hrow2⟩
    rcases List.mem_map.mp hrow2 with ⟨d, _, rfl⟩
    exact List.mem_map.mpr ⟨p, hp, rfl⟩
  · intro hlim hex
    simp only [getTopDriversList]
    have hlen : (((groupSum ds.results).insertionSort ptsGe).take limit).length = limit := by
      rw [List.length_take, List.length_insertionSort]
      exact Nat.min_eq_left hlim
    have hstrict := flatMap_length_lt (((groupSum ds.results).insertionSort ptsGe).take limit)
      _ (fun x _ => hblock x) ?_
    · rw [hlen] at hstrict
      exact hstrict
    · rcases hex with ⟨p, hp, hfp⟩
      exact ⟨p, hp, by rw [hfp]; rfl⟩

/-- Witness for `getTopDriversList_spec` on `dsTop` with limit 2:
driver 11 is in the top two by points but missing from the driver table,
so the output has strictly fewer than 2 rows. -/
theorem getTopDriversList_spec_witness :
    (dsTop.drivers.map fun d => d.driverId).Nodup
    ∧ (getTopDriversList dsTop 2).length ≤ 2
    ∧ List.Pairwise (fun a b => b.points ≤ a.points) (getTopDriversList dsTop 2)
    ∧ (getTopDriversList dsTop 2).length < 2 := by
  have h := getTopDriversList_spec dsTop 2 (by decide)
  refine ⟨by decide, h.1, h.2.1, ?_⟩
  apply h.2.2.2
  · decide
  · have hsort : (groupSum dsTop.results).insertionSort ptsGe
        = [(10, 25), (11, 18), (12, 10)] := by
      norm_num [groupSum, firstKeys, firstKeysAux, dsTop, List.insertionSort,
        List.orderedInsert, ptsGe]
    exact ⟨(11, 18), by rw [hsort]; decide, by decide⟩

end F1
